import Mathlib

/-!
Shallow embedding of the `mark` directory-bookmarking CLI (src/main.go).

The persisted store is a single newline-delimited file.  We model the
filesystem state visible to the program as `FS`: whether the backing file
exists, its lines, and two fault-injection flags (`failTruncate` makes
`os.Truncate` fail, `failWrite` makes `file.WriteString` fail) so that the
error-discarding paths of the Go code can be exercised.  Every operation of
`LocalMarkDB` is a pure function `FS → result × FS`, and every CLI handler of
`MarkCli` is a pure function producing a `CliResult` (exit code, stdout lines,
stderr lines, final filesystem state); `handleError` + `os.Exit(1)` becomes an
early return of an exit-code-1 result.
-/

/-- Filesystem state visible to the program: the backing `~/.mark` file
(existence and line contents) plus fault-injection flags. -/
structure FS where
  fileExists : Bool
  lines : List String
  failTruncate : Bool
  failWrite : Bool
deriving Repr, DecidableEq

/-- Happy-path predicate: the backing file exists and no filesystem faults are injected
(the ordinary happy-path world). -/
def FS.good (fs : FS) : Prop :=
  fs.fileExists = true ∧ fs.failTruncate = false ∧ fs.failWrite = false

instance (fs : FS) : Decidable fs.good := by
  unfold FS.good; infer_instance

/-- Model of `LocalMarkDB.List` (src/main.go lines 69-83): open the DB file with
`O_RDONLY|O_CREATE` (creating it empty when absent) and return its lines. -/
def dbList (fs : FS) : Except String (List String) × FS :=
  let fs1 := if fs.fileExists then fs else { fs with fileExists := true, lines := [] }
  (Except.ok fs1.lines, fs1)

/-- Model of `LocalMarkDB.Clear` (src/main.go lines 103-105): `os.Truncate(file, 0)`.
`Truncate` does not create the file: on a missing file it fails with a
path error, and it fails when truncation itself fails. -/
def dbClear (fs : FS) : Except String Unit × FS :=
  if fs.fileExists = false then
    (Except.error "truncate: no such file or directory", fs)
  else if fs.failTruncate then
    (Except.error "truncate: permission denied", fs)
  else
    (Except.ok (), { fs with lines := [] })

/-- Model of `LocalMarkDB.Add` (src/main.go lines 49-67): read the current list,
prepend `path`, ignore the result of `l.Clear()`, reopen with
`O_APPEND|O_WRONLY|O_CREATE` and append every entry; the returned error is
the one of the last `WriteString`. -/
def dbAdd (path : String) (fs : FS) : Except String Unit × FS :=
  match dbList fs with
  | (Except.error e, fs1) => (Except.error e, fs1)
  | (Except.ok writtenPaths, fs1) =>
    let paths := path :: writtenPaths
    let fs2 := (dbClear fs1).2
    let fs3 := { fs2 with fileExists := true }
    if fs3.failWrite then
      (Except.error "write: input/output error", fs3)
    else
      (Except.ok (), { fs3 with lines := fs3.lines ++ paths })

/-- Model of `LocalMarkDB.Get` (src/main.go lines 35-47): reject a negative index,
read the list, reject `index > len-1`, return `paths[index]`. -/
def dbGet (index : Int) (fs : FS) : Except String String × FS :=
  if index < 0 then
    (Except.error "invalid index", fs)
  else
    match dbList fs with
    | (Except.error e, fs1) => (Except.error e, fs1)
    | (Except.ok paths, fs1) =>
      if index < 0 ∨ index > (paths.length : Int) - 1 then
        (Except.error "invalid index", fs1)
      else
        (Except.ok (paths.getD index.toNat ""), fs1)

/-- The re-persist loop of `LocalMarkDB.Delete` (src/main.go lines 94-99):
re-`Add` every path whose position differs from `suppliedIndex`, in order,
discarding each `Add`'s error. -/
def deleteReAdd (paths : List String) (suppliedIndex idx : Int) (fs : FS) : FS :=
  match paths with
  | [] => fs
  | p :: rest =>
    let fs1 := if idx = suppliedIndex then fs else (dbAdd p fs).2
    deleteReAdd rest suppliedIndex (idx + 1) fs1

/-- Model of `LocalMarkDB.Delete` (src/main.go lines 85-101): read the list, reject an
out-of-bounds index, then `l.Clear()` (error discarded) and re-`Add` every
other entry (errors discarded); returns `nil` on this path. -/
def dbDelete (suppliedIndex : Int) (fs : FS) : Except String Unit × FS :=
  match dbList fs with
  | (Except.error e, fs1) => (Except.error e, fs1)
  | (Except.ok paths, fs1) =>
    if suppliedIndex < 0 ∨ suppliedIndex ≥ (paths.length : Int) then
      (Except.error "invalid index", fs1)
    else
      let fs2 := (dbClear fs1).2
      (Except.ok (), deleteReAdd paths suppliedIndex 0 fs2)

/-- Model of Go `strings.Split(s, "/")` for the one-character separator used by
`MarkCli.Back` (src/main.go line 164): split at every `/`, keeping empty
pieces, so a leading `/` yields a leading empty piece. -/
def splitSlashAux : List Char → List Char → List String
  | [], cur => [String.mk cur.reverse]
  | c :: cs, cur =>
    if c = '/' then String.mk cur.reverse :: splitSlashAux cs []
    else splitSlashAux cs (c :: cur)

/-- Model of Go `strings.Split(cwd, "/")`. -/
def splitSlash (s : String) : List String := splitSlashAux s.toList []

/-- Digit run of `strconv.Atoi`: at least one decimal digit and nothing else. -/
def goDigits (cs : List Char) : Option Nat :=
  if cs ≠ [] ∧ cs.all Char.isDigit then
    some (cs.foldl (fun n c => n * 10 + (c.toNat - 48)) 0)
  else
    none

/-- Modelled after Go `strconv.Atoi` (external standard library): an optional
`+`/`-` sign followed by one or more decimal digits; anything else is a
syntax error (`none`). -/
def goAtoi (s : String) : Option Int :=
  match s.toList with
  | '-' :: rest => (goDigits rest).map (fun n => -(n : Int))
  | '+' :: rest => (goDigits rest).map (fun n => (n : Int))
  | cs => (goDigits cs).map (fun n => (n : Int))

/-- The error text of a failed `strconv.Atoi`, printed by `handleError`. -/
def goAtoiErr (s : String) : String :=
  "strconv.Atoi: parsing \"" ++ s ++ "\": invalid syntax"

/-- Observable outcome of one CLI invocation: process exit code, stdout
lines, stderr lines, final filesystem state.  `handleError` on a non-nil
error (src/main.go lines 273-278) prints to stderr and calls `os.Exit(1)`,
which we model as an early return of an `exitCode = 1` result. -/
structure CliResult where
  exitCode : Nat
  stdout : List String
  stderr : List String
  fs : FS
deriving Repr, DecidableEq

/-- Model of `handleError` with a non-nil error: message on stderr, exit code 1. -/
def errExit (msg : String) (fs : FS) : CliResult :=
  ⟨1, [], [msg], fs⟩

/-- Normal handler completion: the given stdout lines, exit code 0. -/
def okOut (outLines : List String) (fs : FS) : CliResult :=
  ⟨0, outLines, [], fs⟩

/-- Prefix stdout lines printed before the rest of a handler ran. -/
def withOut (pre : List String) (r : CliResult) : CliResult :=
  { r with stdout := pre ++ r.stdout }

/-- The help text printed by `MarkCli.DisplayHelp` (src/main.go lines 136-154). -/
def helpText : String :=
  "\nMarks the current location.\nIf no command is specified, the current working directory is saved to the mark db.\n\nUsage:\n\tmark [command]\n\nAvailable Commands:\n\thelp            Displays help menu\n\tadd             Adds the current working directory to mark db(Default action)\n\tback   <index>  Prints out the number of directories back based on the index provided\n\tclear           Clears out the paths in the mark db\n\tdelete <index>  Deletes out a path in mark db based on the index provided\n\tget    <index>  Get the path in mark db based on the index provided\n\tlist            List out the all the marked paths by index\n\tinstall         Prints out directions to create move and back commands in your .bashrc\n"

/-- The shell-integration text printed by `MarkCli.Install`
(src/main.go lines 233-256). -/
def installText : String :=
  "\nRun the following commands to create a move function based on the index provided:\n\n1. Add the following code to ~/.bashrc\n\nmove() \x7b\n\tlocal readonly DEST=$(mark get $1)\n\tif [[ ! -z $DEST ]]; then\n\t\tcd $DEST\n\tfi\n\x7d\n\nback() \x7b\n\tlocal readonly DEST=$(mark back $1)\n\tif [[ ! -z $DEST ]]; then\n\t\tcd $DEST\n\tfi\n\x7d\n\n2. Run the following command\nsource ~/.bashrc\n"

/-- Model of `MarkCli.DisplayHelp` (src/main.go lines 136-154): print the help text. -/
def cliDisplayHelp (_args : List String) (fs : FS) : CliResult :=
  okOut [helpText] fs

/-- Model of `MarkCli.Install` (src/main.go lines 233-256): print the snippet. -/
def cliInstall (_args : List String) (fs : FS) : CliResult :=
  okOut [installText] fs

/-- Model of `MarkCli.Back` (src/main.go lines 156-176): split `cwd` on `/`, reject a
negative index, compute `directoriesBack = len(arr) - index`, print `/` when
it is 1, reject when it is ≤ 0, otherwise print the first `directoriesBack`
pieces rejoined with `/`. -/
def cliBack (cwd : String) (args : List String) (fs : FS) : CliResult :=
  if args.length ≠ 1 then errExit "invalid number of args" fs
  else
    match goAtoi (args.headD "") with
    | none => errExit (goAtoiErr (args.headD "")) fs
    | some index =>
      let arr := splitSlash cwd
      if index < 0 then errExit "invalid index" fs
      else
        let directoriesBack := (arr.length : Int) - index
        if directoriesBack = 1 then okOut ["/"] fs
        else if directoriesBack ≤ 0 then errExit "invalid index" fs
        else okOut [String.intercalate "/" (arr.take directoriesBack.toNat)] fs

/-- Model of `MarkCli.List` (src/main.go lines 178-187): print `[i] path` per entry. -/
def cliList (args : List String) (fs : FS) : CliResult :=
  if args.length ≠ 0 then errExit "invalid number of arguments" fs
  else
    match dbList fs with
    | (Except.error e, fs1) => errExit e fs1
    | (Except.ok paths, fs1) =>
      okOut (paths.enum.map (fun p => "[" ++ toString p.1 ++ "] " ++ p.2)) fs1

/-- The move-to-front loop of `MarkCli.Add` (src/main.go lines 207-213):
re-`Add` every stored path other than `path`, in stored order, stopping with
`handleError` at the first `Add` error. -/
def cliAddMoveLoop (path : String) (items : List String) (fs : FS) :
    Except (String × FS) FS :=
  match items with
  | [] => Except.ok fs
  | item :: rest =>
    if item = path then cliAddMoveLoop path rest fs
    else
      match dbAdd item fs with
      | (Except.error e, fs1) => Except.error (e, fs1)
      | (Except.ok _, fs1) => cliAddMoveLoop path rest fs1

/-- Model of `MarkCli.Add` (src/main.go lines 189-214): with no arguments, read the
list; if `cwd` is absent, `db.Add` it (reporting any error with the message
"invalid number of arguments", src line 200); if present, print
"path already exists. Moving to top.", then `db.Clear()` and `db.Add(cwd)`
with errors discarded, then re-`Add` every other stored path in order. -/
def cliAdd (cwd : String) (args : List String) (fs : FS) : CliResult :=
  if args.length ≠ 0 then errExit "invalid number of arguments" fs
  else
    match dbList fs with
    | (Except.error e, fs1) => errExit e fs1
    | (Except.ok paths, fs1) =>
      if !(paths.contains cwd) then
        match dbAdd cwd fs1 with
        | (Except.error _, fs2) => errExit "invalid number of arguments" fs2
        | (Except.ok _, fs2) => okOut [] fs2
      else
        let msg := "path already exists. Moving to top."
        let fs2 := (dbClear fs1).2
        let fs3 := (dbAdd cwd fs2).2
        match cliAddMoveLoop cwd paths fs3 with
        | Except.error ef => withOut [msg] (errExit ef.1 ef.2)
        | Except.ok fs4 => withOut [msg] (okOut [] fs4)

/-- Model of `MarkCli.Get` (src/main.go lines 216-231): at most one argument, default
index 0, non-numeric argument reported as "index is not a number", then
`db.Get` and print the path. -/
def cliGet (args : List String) (fs : FS) : CliResult :=
  if args.length > 1 then errExit "invalid number of arguments" fs
  else
    let indexOpt : Option Int :=
      if args.length = 1 then goAtoi (args.headD "") else some 0
    match indexOpt with
    | none => errExit "index is not a number" fs
    | some index =>
      match dbGet index fs with
      | (Except.error e, fs1) => errExit e fs1
      | (Except.ok path, fs1) => okOut [path] fs1

/-- Model of `MarkCli.Clear` (src/main.go lines 258-261): `db.Clear()`, reporting its
error; no argument check. -/
def cliClear (_args : List String) (fs : FS) : CliResult :=
  match dbClear fs with
  | (Except.error e, fs1) => errExit e fs1
  | (Except.ok _, fs1) => okOut [] fs1

/-- Model of `MarkCli.Delete` (src/main.go lines 263-271): exactly one argument,
parsed with `strconv.Atoi`, then `db.Delete`. -/
def cliDelete (args : List String) (fs : FS) : CliResult :=
  if args.length ≠ 1 then errExit "specify index" fs
  else
    match goAtoi (args.headD "") with
    | none => errExit (goAtoiErr (args.headD "")) fs
    | some index =>
      match dbDelete index fs with
      | (Except.error e, fs1) => errExit e fs1
      | (Except.ok _, fs1) => okOut [] fs1

/-- The command names registered in `main`'s dispatch map
(src/main.go lines 285-294). -/
def knownCommands : List String :=
  ["add", "back", "clear", "delete", "get", "help", "install", "list"]

/-- Model of `main` (src/main.go lines 280-315): `userArgs` is `os.Args[1:]`.  With no
arguments the command defaults to `add`; an unknown command prints a notice
to stderr and falls back to the help handler (exit code stays 0); otherwise
the matching handler runs on the remaining arguments. -/
def runMark (userArgs : List String) (cwd : String) (fs : FS) : CliResult :=
  let args := if userArgs.isEmpty then ["add"] else userArgs
  let commandArgs := args.tail
  match args.headD "" with
  | "add" => cliAdd cwd commandArgs fs
  | "back" => cliBack cwd commandArgs fs
  | "clear" => cliClear commandArgs fs
  | "delete" => cliDelete commandArgs fs
  | "get" => cliGet commandArgs fs
  | "help" => cliDisplayHelp commandArgs fs
  | "install" => cliInstall commandArgs fs
  | "list" => cliList commandArgs fs
  | _ =>
    let r := cliDisplayHelp commandArgs fs
    { r with stderr := "invalid option. displaying help." :: r.stderr }

/-- Iterated store-level `Add`: fold `LocalMarkDB.Add` over a list of paths
(the state part only), earliest first. -/
def addAll (ps : List String) (fs : FS) : FS :=
  ps.foldl (fun acc p => (dbAdd p acc).2) fs

/-- Error-reporting contract of one invocation: either a clean exit (code 0,
nothing on stderr) or the `handleError` exit (code 1, exactly one message on
stderr). -/
def reportsCleanly (r : CliResult) : Prop :=
  (r.exitCode = 0 ∧ r.stderr = []) ∨ (r.exitCode = 1 ∧ r.stderr.length = 1)

/-- On a happy-path state, `List` returns the stored lines unchanged. -/
lemma dbList_good (fs : FS) (h : fs.good) : dbList fs = (Except.ok fs.lines, fs) := by
  obtain ⟨h1, h2, h3⟩ := h
  simp [dbList, h1]

/-- On a happy-path state, `Clear` succeeds and empties the lines. -/
lemma dbClear_good (fs : FS) (h : fs.good) :
    dbClear fs = (Except.ok (), { fs with lines := [] }) := by
  obtain ⟨h1, h2, h3⟩ := h
  simp [dbClear, h1, h2]

/-- Replacing the lines preserves the happy-path predicate. -/
lemma good_set_lines (fs : FS) (l : List String) (h : fs.good) :
    ({ fs with lines := l } : FS).good := by
  obtain ⟨h1, h2, h3⟩ := h
  exact ⟨h1, h2, h3⟩

/-- On a happy-path state, `Add` succeeds and prepends the new path. -/
lemma dbAdd_good (p : String) (fs : FS) (h : fs.good) :
    dbAdd p fs = (Except.ok (), { fs with lines := p :: fs.lines }) := by
  obtain ⟨h1, h2, h3⟩ := h
  rcases fs with ⟨fe, l, ft, fw⟩
  simp_all [dbAdd, dbList, dbClear]

/-- Effect of the re-persist loop of `Delete` on a happy-path state: because
each inner `Add` prepends, the kept entries end up reversed on top of the
existing lines. -/
lemma deleteReAdd_good_lines (paths : List String) (si : Int) :
    ∀ (idx : Int) (fs : FS), fs.good →
      (deleteReAdd paths si idx fs).good ∧
      (deleteReAdd paths si idx fs).lines =
        (if si < idx then paths.reverse
         else (paths.eraseIdx (si - idx).toNat).reverse) ++ fs.lines := by
  induction paths with
  | nil =>
    intro idx fs h
    refine ⟨h, ?_⟩
    simp only [deleteReAdd]
    split <;> simp
  | cons p rest ih =>
    intro idx fs h
    by_cases hidx : idx = si
    · subst hidx
      have := ih (idx + 1) fs h
      simp only [deleteReAdd, if_true]
      refine ⟨this.1, ?_⟩
      rw [this.2]
      have hlt : idx < idx + 1 := by omega
      have hnlt : ¬ idx < idx := by omega
      rw [if_pos hlt, if_neg hnlt]
      have : (idx - idx).toNat = 0 := by omega
      simp [this]
    · have hadd := dbAdd_good p fs h
      have hgood1 : ({ fs with lines := p :: fs.lines } : FS).good := good_set_lines fs _ h
      have := ih (idx + 1) { fs with lines := p :: fs.lines } hgood1
      simp only [deleteReAdd]
      rw [if_neg hidx, hadd]
      refine ⟨this.1, ?_⟩
      rw [this.2]
      by_cases hlt : si < idx
      · have : si < idx + 1 := by omega
        rw [if_pos this, if_pos hlt]
        simp
      · have h1 : ¬ si < idx + 1 := by omega
        rw [if_neg h1, if_neg hlt]
        have h2 : (si - idx).toNat = (si - (idx + 1)).toNat + 1 := by omega
        rw [h2]
        simp

/-- Iterated `Add` on a happy-path state stacks the added paths in reverse
order on top of the previous lines. -/
lemma addAll_good_lines (ps : List String) :
    ∀ fs : FS, fs.good →
      (addAll ps fs).good ∧ (addAll ps fs).lines = ps.reverse ++ fs.lines := by
  induction ps with
  | nil => intro fs h; simpa [addAll] using h
  | cons p rest ih =>
    intro fs h
    have hadd := dbAdd_good p fs h
    have hgood1 : ({ fs with lines := p :: fs.lines } : FS).good := good_set_lines fs _ h
    have := ih { fs with lines := p :: fs.lines } hgood1
    simp only [addAll, List.foldl_cons, hadd]
    refine ⟨this.1, ?_⟩
    have h2 := this.2
    simp only [addAll] at h2
    rw [h2]
    simp

/-- An error reported via `handleError` satisfies the reporting contract. -/
lemma reportsCleanly_errExit (m : String) (fs : FS) : reportsCleanly (errExit m fs) :=
  Or.inr ⟨rfl, rfl⟩

/-- A normal completion satisfies the reporting contract. -/
lemma reportsCleanly_okOut (o : List String) (fs : FS) : reportsCleanly (okOut o fs) :=
  Or.inl ⟨rfl, rfl⟩

/-- Earlier stdout output does not affect the reporting contract. -/
lemma reportsCleanly_withOut (pre : List String) (r : CliResult)
    (h : reportsCleanly r) : reportsCleanly (withOut pre r) := by
  rcases h with ⟨h1, h2⟩ | ⟨h1, h2⟩
  · exact Or.inl ⟨h1, h2⟩
  · exact Or.inr ⟨h1, h2⟩

/-- Every path through the `add` handler respects the reporting contract. -/
lemma cliAdd_reports (cwd : String) (args : List String) (fs : FS) :
    reportsCleanly (cliAdd cwd args fs) := by
  unfold cliAdd
  dsimp only
  repeat' split
  all_goals
    first
      | exact reportsCleanly_errExit _ _
      | exact reportsCleanly_okOut _ _
      | exact reportsCleanly_withOut _ _ (reportsCleanly_errExit _ _)

/-- Every path through the `back` handler respects the reporting contract. -/
lemma cliBack_reports (cwd : String) (args : List String) (fs : FS) :
    reportsCleanly (cliBack cwd args fs) := by
  unfold cliBack
  dsimp only
  repeat' split
  all_goals
    first
      | exact reportsCleanly_errExit _ _
      | exact reportsCleanly_okOut _ _

/-- Every path through the `clear` handler respects the reporting contract. -/
lemma cliClear_reports (args : List String) (fs : FS) :
    reportsCleanly (cliClear args fs) := by
  unfold cliClear
  repeat' split
  all_goals
    first
      | exact reportsCleanly_errExit _ _
      | exact reportsCleanly_okOut _ _

/-- Every path through the `delete` handler respects the reporting contract. -/
lemma cliDelete_reports (args : List String) (fs : FS) :
    reportsCleanly (cliDelete args fs) := by
  unfold cliDelete
  repeat' split
  all_goals
    first
      | exact reportsCleanly_errExit _ _
      | exact reportsCleanly_okOut _ _

/-- Every path through the `get` handler respects the reporting contract. -/
lemma cliGet_reports (args : List String) (fs : FS) :
    reportsCleanly (cliGet args fs) := by
  unfold cliGet
  dsimp only
  repeat' split
  all_goals
    first
      | exact reportsCleanly_errExit _ _
      | exact reportsCleanly_okOut _ _

/-- Every path through the `list` handler respects the reporting contract. -/
lemma cliList_reports (args : List String) (fs : FS) :
    reportsCleanly (cliList args fs) := by
  unfold cliList
  repeat' split
  all_goals
    first
      | exact reportsCleanly_errExit _ _
      | exact reportsCleanly_okOut _ _

/-- The `help` handler respects the reporting contract. -/
lemma cliDisplayHelp_reports (args : List String) (fs : FS) :
    reportsCleanly (cliDisplayHelp args fs) :=
  reportsCleanly_okOut _ _

/-- The `install` handler respects the reporting contract. -/
lemma cliInstall_reports (args : List String) (fs : FS) :
    reportsCleanly (cliInstall args fs) :=
  reportsCleanly_okOut _ _

/-- Claim C1 (code bug observed): re-adding a path that is already stored
prints "path already exists. Moving to top." but actually moves it to the
BOTTOM and reverses the other entries: from the store
`["/a", "/b", "/c"]` with cwd `/b`, the `add` command produces
`["/c", "/a", "/b"]` instead of the claimed `["/b", "/a", "/c"]`, so the
re-added path is not at index 0 and the relative order of the others is not
preserved (the count does stay unchanged). -/
theorem add_present_moves_to_bottom :
    (cliAdd "/b" [] ⟨true, ["/a", "/b", "/c"], false, false⟩).exitCode = 0 ∧
    (cliAdd "/b" [] ⟨true, ["/a", "/b", "/c"], false, false⟩).stdout =
      ["path already exists. Moving to top."] ∧
    (cliAdd "/b" [] ⟨true, ["/a", "/b", "/c"], false, false⟩).fs.lines =
      ["/c", "/a", "/b"] ∧
    (["/c", "/a", "/b"] : List String) ≠ ["/b", "/a", "/c"] ∧
    (["/c", "/a", "/b"] : List String).headD "" ≠ "/b" :=
  ⟨rfl, rfl, rfl, by decide, by decide⟩

/-- Claim C2 (counterexample to the claim as stated): deleting index 0 from
the store `["/a", "/b", "/c"]` succeeds but leaves `["/c", "/b"]`, not the
claimed original-order remainder `["/b", "/c"]`. -/
theorem delete_order_counterexample :
    (dbDelete 0 ⟨true, ["/a", "/b", "/c"], false, false⟩).1 = Except.ok () ∧
    (dbDelete 0 ⟨true, ["/a", "/b", "/c"], false, false⟩).2.lines = ["/c", "/b"] ∧
    (["/c", "/b"] : List String) ≠ ["/b", "/c"] :=
  ⟨rfl, rfl, by decide⟩

/-- Claim C2 (amended): on a happy-path store of length `n` and a valid index
`i`, `Delete(i)` succeeds, removes exactly the entry at position `i`, and
re-persists the remaining `n-1` entries in REVERSED relative order (because
the re-persist loop re-adds them through the prepending `Add`); the length
drops by exactly 1. -/
theorem delete_valid_erases_and_reverses (fs : FS) (i : Int) (h : fs.good)
    (h0 : 0 ≤ i) (h1 : i < (fs.lines.length : Int)) :
    (dbDelete i fs).1 = Except.ok () ∧
    (dbDelete i fs).2.lines = (fs.lines.eraseIdx i.toNat).reverse ∧
    (dbDelete i fs).2.lines.length = fs.lines.length - 1 := by
  have hlist := dbList_good fs h
  have hclear := dbClear_good fs h
  have hgood2 : ({ fs with lines := [] } : FS).good := good_set_lines fs _ h
  have hnot : ¬ (i < 0 ∨ i ≥ (fs.lines.length : Int)) := by omega
  have hra := deleteReAdd_good_lines fs.lines i 0 { fs with lines := [] } hgood2
  simp only [dbDelete, hlist, hclear, if_neg hnot]
  have hnlt : ¬ i < 0 := by omega
  rw [hra.2, if_neg hnlt]
  have : (i - 0).toNat = i.toNat := by omega
  rw [this]
  refine ⟨trivial, by simp, ?_⟩
  have hlen : i.toNat < fs.lines.length := by omega
  simp [List.length_eraseIdx, hlen]

/-- Witness for the amended C2 theorem at the store `["/a", "/b", "/c"]`
with index 1. -/
theorem delete_valid_witness :
    (dbDelete 1 ⟨true, ["/a", "/b", "/c"], false, false⟩).2.lines =
      ((["/a", "/b", "/c"] : List String).eraseIdx (1 : Int).toNat).reverse :=
  (delete_valid_erases_and_reverses ⟨true, ["/a", "/b", "/c"], false, false⟩ 1
    (by decide) (by decide) (by decide)).2.1

/-- Claim C3 (counterexample to the claim as stated): with cwd `/a/b/c/d`,
`back 3` prints `/a` (not the claimed `/`), `back 4` succeeds printing `/`
(the claim says it fails), and the failure boundary is index 5. -/
theorem back_index3_counterexample :
    (cliBack "/a/b/c/d" ["3"] ⟨true, [], false, false⟩).stdout = ["/a"] ∧
    ("/a" : String) ≠ "/" ∧
    (cliBack "/a/b/c/d" ["4"] ⟨true, [], false, false⟩).exitCode = 0 ∧
    (cliBack "/a/b/c/d" ["4"] ⟨true, [], false, false⟩).stdout = ["/"] ∧
    (cliBack "/a/b/c/d" ["5"] ⟨true, [], false, false⟩).exitCode = 1 ∧
    (cliBack "/a/b/c/d" ["5"] ⟨true, [], false, false⟩).stderr = ["invalid index"] :=
  ⟨rfl, by decide, rfl, rfl, rfl, rfl⟩

/-- Claim C3 (amended): the `back` command splits cwd on `/` into pieces that
INCLUDE the leading empty piece (`/a/b/c/d` gives 5 pieces), computes
`directoriesBack = pieceCount - index`, rejects a negative index, prints the
root `/` when `directoriesBack = 1`, fails with "invalid index" when
`directoriesBack ≤ 0`, and otherwise prints the first `directoriesBack`
pieces rejoined with `/`; hence for `/a/b/c/d` index 0 prints `/a/b/c/d`,
index 1 prints `/a/b/c`, index 3 prints `/a`, index 4 prints `/`, and
index 5 fails. -/
theorem back_semantics (cwd s : String) (index : Int) (fs : FS)
    (hp : goAtoi s = some index) :
    (index < 0 → cliBack cwd [s] fs = errExit "invalid index" fs) ∧
    (0 ≤ index → ((splitSlash cwd).length : Int) - index = 1 →
      cliBack cwd [s] fs = okOut ["/"] fs) ∧
    (0 ≤ index → ((splitSlash cwd).length : Int) - index ≤ 0 →
      cliBack cwd [s] fs = errExit "invalid index" fs) ∧
    (0 ≤ index → 2 ≤ ((splitSlash cwd).length : Int) - index →
      cliBack cwd [s] fs =
        okOut [String.intercalate "/"
          ((splitSlash cwd).take ((((splitSlash cwd).length : Int) - index).toNat))] fs) := by
  have hlen : ([s].length : Nat) = 1 := rfl
  refine ⟨?_, ?_, ?_, ?_⟩
  · intro hneg
    simp only [cliBack, hlen, if_neg (by omega : ¬ (1 : Nat) ≠ 1), List.headD, hp,
      if_pos hneg]
  · intro hge h1
    have hn : ¬ index < 0 := by omega
    simp only [cliBack, hlen, if_neg (by omega : ¬ (1 : Nat) ≠ 1), List.headD, hp,
      if_neg hn, if_pos h1]
  · intro hge h0
    have hn : ¬ index < 0 := by omega
    have hne1 : ¬ ((splitSlash cwd).length : Int) - index = 1 := by omega
    simp only [cliBack, hlen, if_neg (by omega : ¬ (1 : Nat) ≠ 1), List.headD, hp,
      if_neg hn, if_neg hne1, if_pos h0]
  · intro hge h2
    have hn : ¬ index < 0 := by omega
    have hne1 : ¬ ((splitSlash cwd).length : Int) - index = 1 := by omega
    have hnle : ¬ ((splitSlash cwd).length : Int) - index ≤ 0 := by omega
    simp only [cliBack, hlen, if_neg (by omega : ¬ (1 : Nat) ≠ 1), List.headD, hp,
      if_neg hn, if_neg hne1, if_neg hnle]

/-- Witness for the amended C3 theorem: cwd `/a/b/c/d`, index 3. -/
theorem back_semantics_witness :
    cliBack "/a/b/c/d" ["3"] ⟨true, [], false, false⟩ =
      okOut [String.intercalate "/"
        ((splitSlash "/a/b/c/d").take
          ((((splitSlash "/a/b/c/d").length : Int) - 3).toNat))] ⟨true, [], false, false⟩ :=
  (back_semantics "/a/b/c/d" "3" 3 ⟨true, [], false, false⟩ (by decide)).2.2.2
    (by decide) (by decide)

/-- Claim C4: on a happy-path store, a store-level `Add(p)` succeeds and a
subsequent `List()` returns `p` followed by the previous contents in their
previous order; iterating `Add` over a sequence of distinct paths makes
`List()` return them most-recent-first. -/
theorem add_prepends_list_lifo (fs : FS) (p : String) (ps : List String)
    (h : fs.good) (_hdistinct : ps.Nodup) :
    (dbAdd p fs).1 = Except.ok () ∧
    (dbList (dbAdd p fs).2).1 = Except.ok (p :: fs.lines) ∧
    (dbList (addAll ps fs)).1 = Except.ok (ps.reverse ++ fs.lines) := by
  have hadd := dbAdd_good p fs h
  have hgood1 : ({ fs with lines := p :: fs.lines } : FS).good := good_set_lines fs _ h
  have hall := addAll_good_lines ps fs h
  rw [hadd, dbList_good _ hgood1, dbList_good _ hall.1, hall.2]
  exact ⟨rfl, rfl, rfl⟩

/-- Witness for C4: adding `/x` then `/y` to an empty store lists
`["/y", "/x"]`. -/
theorem add_prepends_list_lifo_witness :
    (dbList (addAll ["/x", "/y"] ⟨true, [], false, false⟩)).1 =
      Except.ok ["/y", "/x"] := by
  have h := add_prepends_list_lifo ⟨true, [], false, false⟩ "/p" ["/x", "/y"]
    (by decide) (by decide)
  simpa using h.2.2

/-- Claim C5: on a happy-path store of length `n`, `Get(i)` and `Delete(i)`
fail with the "invalid index" error exactly when `i < 0` or `i ≥ n`;
otherwise `Get(i)` returns the path at zero-based position `i` and
`Delete(i)` reports success. -/
theorem get_delete_invalid_index_iff (fs : FS) (i : Int) (h : fs.good) :
    ((dbGet i fs).1 = Except.error "invalid index" ↔
      (i < 0 ∨ (fs.lines.length : Int) ≤ i)) ∧
    (0 ≤ i → i < (fs.lines.length : Int) →
      (dbGet i fs).1 = Except.ok (fs.lines.getD i.toNat "")) ∧
    ((dbDelete i fs).1 = Except.error "invalid index" ↔
      (i < 0 ∨ (fs.lines.length : Int) ≤ i)) ∧
    (0 ≤ i → i < (fs.lines.length : Int) → (dbDelete i fs).1 = Except.ok ()) := by
  have hlist := dbList_good fs h
  refine ⟨?_, ?_, ?_, ?_⟩
  · simp only [dbGet, hlist]
    by_cases h0 : i < 0
    · simp only [if_pos h0]
      simp
      omega
    · rw [if_neg h0]
      by_cases h1 : i < 0 ∨ i > (fs.lines.length : Int) - 1
      · simp only [if_pos h1]
        simp
        omega
      · simp only [if_neg h1]
        simp
        omega
  · intro hge hlt
    have h0 : ¬ i < 0 := by omega
    have h1 : ¬ (i < 0 ∨ i > (fs.lines.length : Int) - 1) := by omega
    simp only [dbGet, hlist, if_neg h0, if_neg h1]
  · simp only [dbDelete, hlist]
    by_cases h1 : i < 0 ∨ i ≥ (fs.lines.length : Int)
    · simp only [if_pos h1]
      simp
      omega
    · simp only [if_neg h1]
      simp
      omega
  · intro hge hlt
    have h1 : ¬ (i < 0 ∨ i ≥ (fs.lines.length : Int)) := by omega
    simp only [dbDelete, hlist, if_neg h1]

/-- Witness for C5: on the store `["/a", "/b"]`, `Get 1` returns `/b` and
`Get 2` fails with "invalid index". -/
theorem get_delete_invalid_index_iff_witness :
    (dbGet 1 ⟨true, ["/a", "/b"], false, false⟩).1 = Except.ok "/b" ∧
    (dbGet 2 ⟨true, ["/a", "/b"], false, false⟩).1 = Except.error "invalid index" := by
  have h := get_delete_invalid_index_iff ⟨true, ["/a", "/b"], false, false⟩ 1 (by decide)
  have h2 := get_delete_invalid_index_iff ⟨true, ["/a", "/b"], false, false⟩ 2 (by decide)
  exact ⟨h.2.1 (by decide) (by decide), h2.1.mpr (by decide)⟩

/-- Claim C6: an unrecognized command token makes the dispatcher print the
notice to stderr plus the help text to stdout and exit 0, while every run of
a recognized command either exits 0 with nothing on stderr or exits 1 with
exactly one (error) message on stderr. -/
theorem cli_exit_codes (userArgs : List String) (cwd : String) (fs : FS) :
    (∀ c rest, userArgs = c :: rest → c ∉ knownCommands →
      runMark userArgs cwd fs =
        ⟨0, [helpText], ["invalid option. displaying help."], fs⟩) ∧
    ((userArgs = [] ∨ userArgs.headD "" ∈ knownCommands) →
      reportsCleanly (runMark userArgs cwd fs)) := by
  constructor
  · intro c rest heq hmem
    subst heq
    simp only [knownCommands, List.mem_cons, List.mem_singleton, List.not_mem_nil] at hmem
    push_neg at hmem
    unfold runMark
    simp only [List.isEmpty_cons, Bool.false_eq_true, if_neg (by simp : ¬ False),
      List.headD_cons, List.tail_cons]
    split
    all_goals simp_all [cliDisplayHelp, okOut]
  · intro h
    rcases userArgs with _ | ⟨c, rest⟩
    · exact cliAdd_reports cwd [] fs
    · have hc : c ∈ knownCommands := by
        rcases h with h | h
        · exact absurd h (by simp)
        · simpa using h
      simp only [knownCommands, List.mem_cons, List.mem_singleton,
        List.not_mem_nil, or_false] at hc
      rcases hc with rfl | rfl | rfl | rfl | rfl | rfl | rfl | rfl
      · exact cliAdd_reports cwd rest fs
      · exact cliBack_reports cwd rest fs
      · exact cliClear_reports rest fs
      · exact cliDelete_reports rest fs
      · exact cliGet_reports rest fs
      · exact cliDisplayHelp_reports rest fs
      · exact cliInstall_reports rest fs
      · exact cliList_reports rest fs

/-- Witness for C6: the unknown command `bogus` exits 0 with the notice and
help text, and `delete 7` on an empty store reports its error cleanly. -/
theorem cli_exit_codes_witness :
    runMark ["bogus"] "/w" ⟨true, [], false, false⟩ =
      ⟨0, [helpText], ["invalid option. displaying help."], ⟨true, [], false, false⟩⟩ ∧
    reportsCleanly (runMark ["delete", "7"] "/w" ⟨true, [], false, false⟩) :=
  ⟨(cli_exit_codes ["bogus"] "/w" ⟨true, [], false, false⟩).1 "bogus" [] rfl (by decide),
   (cli_exit_codes ["delete", "7"] "/w" ⟨true, [], false, false⟩).2 (Or.inr (by decide))⟩

/-- Claim C7: the `get` command with no arguments uses index 0, printing the
front entry of the store. -/
theorem get_no_args_front (fs : FS) (p : String) (rest : List String)
    (h : fs.good) (hl : fs.lines = p :: rest) :
    cliGet [] fs = okOut [p] fs := by
  have hlist := dbList_good fs h
  have h1 : ¬ ((0 : Int) < 0 ∨ (0 : Int) > (fs.lines.length : Int) - 1) := by
    rw [hl, List.length_cons]
    omega
  have h0 : ¬ ((0 : Int) < 0) := by omega
  have h2 : ¬ ((rest.length : Int) < 0) := by omega
  simp only [cliGet, dbGet, hlist, if_neg h0, if_neg h1]
  simp [hl, if_neg h2]

/-- Witness for C7: on the store built by adding `/x` then `/y` (so `/y` is
at index 0), `get` with no arguments prints `/y`. -/
theorem get_no_args_front_witness :
    cliGet [] (addAll ["/x", "/y"] ⟨true, [], false, false⟩) =
      okOut ["/y"] (addAll ["/x", "/y"] ⟨true, [], false, false⟩) :=
  get_no_args_front (addAll ["/x", "/y"] ⟨true, [], false, false⟩) "/y" ["/x"]
    (by decide) (by decide)

/-- Claim C8: on a happy-path store, `Clear()` succeeds, a subsequent
`List()` returns the empty sequence, and `Clear()` on an already-empty store
leaves the state exactly unchanged (a successful no-op). -/
theorem clear_then_list_empty (fs : FS) (h : fs.good) :
    (dbClear fs).1 = Except.ok () ∧
    (dbList (dbClear fs).2).1 = Except.ok [] ∧
    (fs.lines = [] → (dbClear fs).2 = fs) := by
  have hclear := dbClear_good fs h
  have hgood1 : ({ fs with lines := [] } : FS).good := good_set_lines fs _ h
  rw [hclear, dbList_good _ hgood1]
  refine ⟨rfl, rfl, ?_⟩
  intro he
  rcases fs with ⟨fe, l, ft, fw⟩
  simp_all

/-- Witness for C8 on the already-empty store. -/
theorem clear_then_list_empty_witness :
    (dbClear ⟨true, [], false, false⟩).2 = (⟨true, [], false, false⟩ : FS) :=
  (clear_then_list_empty ⟨true, [], false, false⟩ (by decide)).2.2 rfl

/-- Claim C9: `Delete` on an existing file and a valid index reports success
regardless of the fault flags, because the errors of the inner `Clear` and
`Add` calls are discarded; concretely, with failing writes the store
`["/a", "/b", "/c"]` is left EMPTY after `Delete 1` even though `Delete`
returned success. -/
theorem delete_discards_io_errors (fs : FS) (i : Int) (hex : fs.fileExists = true)
    (h0 : 0 ≤ i) (h1 : i < (fs.lines.length : Int)) :
    (dbDelete i fs).1 = Except.ok () ∧
    (dbDelete 1 ⟨true, ["/a", "/b", "/c"], false, true⟩).1 = Except.ok () ∧
    (dbDelete 1 ⟨true, ["/a", "/b", "/c"], false, true⟩).2.lines = [] := by
  refine ⟨?_, rfl, rfl⟩
  have hlist : dbList fs = (Except.ok fs.lines, fs) := by
    simp [dbList, hex]
  have hn : ¬ (i < 0 ∨ i ≥ (fs.lines.length : Int)) := by omega
  simp only [dbDelete, hlist, if_neg hn]

/-- Witness for C9 at the store `["/a", "/b", "/c"]` with failing writes. -/
theorem delete_discards_io_errors_witness :
    (dbDelete 1 ⟨true, ["/a", "/b", "/c"], false, true⟩).1 = Except.ok () :=
  (delete_discards_io_errors ⟨true, ["/a", "/b", "/c"], false, true⟩ 1
    rfl (by decide) (by decide)).1

/-- Claim C10: when the backing file does not exist, `Clear()` fails (it
truncates without creating), so the `clear` command exits 1 with the error on
stderr, while `List()` succeeds returning the empty sequence and creates the
file, and `Add()` succeeds and creates the file with the one entry. -/
theorem clear_missing_file_fails (l : List String) (p : String) :
    (dbClear ⟨false, l, false, false⟩).1 =
      Except.error "truncate: no such file or directory" ∧
    (cliClear [] ⟨false, l, false, false⟩).exitCode = 1 ∧
    (cliClear [] ⟨false, l, false, false⟩).stderr =
      ["truncate: no such file or directory"] ∧
    (dbList ⟨false, l, false, false⟩).1 = Except.ok [] ∧
    (dbList ⟨false, l, false, false⟩).2.fileExists = true ∧
    (dbAdd p ⟨false, l, false, false⟩).1 = Except.ok () ∧
    (dbAdd p ⟨false, l, false, false⟩).2 = (⟨true, [p], false, false⟩ : FS) :=
  ⟨rfl, rfl, rfl, rfl, rfl, rfl, rfl⟩

/-- Witness for C10 at a concrete fresh system. -/
theorem clear_missing_file_fails_witness :
    (cliClear [] ⟨false, [], false, false⟩).exitCode = 1 ∧
    (dbAdd "/home/u" ⟨false, [], false, false⟩).2 =
      (⟨true, ["/home/u"], false, false⟩ : FS) :=
  ⟨(clear_missing_file_fails [] "/home/u").2.1,
   (clear_missing_file_fails [] "/home/u").2.2.2.2.2.2⟩
